import Mathlib

/-!
# Verification of AuthHashCalc `Source/hash.cpp`

Shallow embedding of the hash support routines of AuthHashCalc
(`HashpAddPad`, `HashpGetSizeOfHeaders`, `HashpGetExcludeRange`,
`CalculateFirstPageHash`, `CalculateAuthenticodeHash`) and proofs about them.

Modelling conventions:
* machine `ULONG` values are `Nat`; 32-bit wrap-around is made explicit with
  `u32add`/`u32sub` exactly where the C code performs `ULONG` arithmetic;
* the mapped file view is a record carrying the parsed header fields the code
  reads through pointers (`e_lfanew`, optional-header magic, section table,
  security data directory, `SizeOfHeaders`, file size) together with the raw
  byte content `byteAt : Nat → Nat`;
* the CNG streaming hash primitive is opaque: a run of a hasher is modelled by
  the exact trace of data it feeds to the primitive (`BCryptHashData` calls,
  then `BCryptFinishHash`).  Two runs produce the same digest iff they feed
  the same byte stream, so digest claims become trace claims;
* `BCryptHashData` on a span of the mapped view faults (SEH exception, caught
  by the `__except` blocks) iff the span is not contained in `[0, fileSize)`;
  on the local zero pad buffer it always succeeds.  `HashpAddPad` is
  additionally parameterised by an oracle `ok : Nat → Bool` giving the success
  status of its n-th `BCryptHashData` call, so that its status propagation can
  be analysed;
* the `while` loop of `CalculateFirstPageHash` mutates a single `ULONG`
  `offset` that wraps at `2^32`, and for adversarial header values the source
  loop never terminates.  The loop is modelled with a fuel of `2^32`: since
  the loop state is exactly one `ULONG` and the step function is
  deterministic, exhausting `2^32` iterations without exiting means a loop
  head state repeated, i.e. the source program diverges; this outcome is a
  distinct result value (`none`).
-/

set_option autoImplicit false

namespace AuthHashCalc

/-- `2^32`, the modulus of `ULONG` arithmetic. -/
def U32MOD : Nat := 4294967296

/-- `ULONG` addition (wraps at `2^32`). -/
def u32add (a b : Nat) : Nat := (a + b) % U32MOD

/-- `ULONG` subtraction (wraps at `2^32`). -/
def u32sub (a b : Nat) : Nat := (a % U32MOD + (U32MOD - b % U32MOD)) % U32MOD

/-- `IMAGE_NT_OPTIONAL_HDR32_MAGIC` (`0x10b`). -/
def IMAGE_NT_OPTIONAL_HDR32_MAGIC : Nat := 267

/-- `IMAGE_NT_OPTIONAL_HDR64_MAGIC` (`0x20b`). -/
def IMAGE_NT_OPTIONAL_HDR64_MAGIC : Nat := 523

/-- `DEFAULT_ALIGN_BYTES` from hash.cpp. -/
def DEFAULT_ALIGN_BYTES : Nat := 8

/-- The two `ULONG` fields of a PE data directory entry. -/
structure IMAGE_DATA_DIRECTORY where
  virtualAddress : Nat
  size : Nat
deriving DecidableEq

/-- The two section-header fields `HashpGetExcludeRange` reads. -/
structure IMAGE_SECTION_HEADER where
  pointerToRawData : Nat
  sizeOfRawData : Nat
deriving DecidableEq

/-- The part of `FILE_VIEW_INFO` (plus the parsed PE headers reachable from
it) that the hash routines read.  `sectionAt i` is the section header at
index `i` of the section table (the code indexes the table unconditionally),
`securityDir` is the value of `DataDirectory[IMAGE_DIRECTORY_ENTRY_SECURITY]`,
`sizeOfHeadersField` the optional header's `SizeOfHeaders` field, `fileSize`
the low 32 bits of `FileSize`, and `byteAt o` the byte of the mapped view at
offset `o` (meaningful for `o < fileSize`). -/
structure FILE_VIEW_INFO where
  e_lfanew : Nat
  optMagic : Nat
  numberOfSections : Nat
  sectionAt : Nat → IMAGE_SECTION_HEADER
  securityDir : IMAGE_DATA_DIRECTORY
  sizeOfHeadersField : Nat
  fileSize : Nat
  byteAt : Nat → Nat

/-- `ExcludeData` member of `FILE_VIEW_INFO`: the offsets excluded from
hashing.  `securityDirectory` holds the (immutable) value the stored pointer
refers to. -/
structure EXCLUDE_DATA where
  checksumOffset : Nat
  securityOffset : Nat
  securityDirectory : IMAGE_DATA_DIRECTORY
deriving DecidableEq

/-- The `IMAGE_VERIFY_*` error codes set in `ViewInformation->LastError` by
the routines modelled here. -/
inductive IMAGE_VERIFY_ERROR where
  | badOptionalHeaderMagic
  | badSectionCount
  | badSecurityDirectoryVA
  | badSecurityDirectorySize
deriving DecidableEq

/-- `HashpGetSizeOfHeaders`: returns the optional header's `SizeOfHeaders`
for a recognized 32-bit or 64-bit magic, `0` otherwise. -/
def HashpGetSizeOfHeaders (v : FILE_VIEW_INFO) : Nat :=
  if v.optMagic = IMAGE_NT_OPTIONAL_HDR64_MAGIC then v.sizeOfHeadersField
  else if v.optMagic = IMAGE_NT_OPTIONAL_HDR32_MAGIC then v.sizeOfHeadersField
  else 0

/-- The validation part of `HashpGetExcludeRange` (everything after the magic
dispatch computed `checksumOffset`/`securityOffset`): when the security
directory has a nonzero `VirtualAddress` it is validated against the last
section's raw-data end, the file size, and the remaining length; otherwise
validation is skipped.  On success the exclusion descriptor is stored. -/
def HashpGetExcludeRangeChecked (v : FILE_VIEW_INFO)
    (checksumOffset securityOffset : Nat) :
    Except IMAGE_VERIFY_ERROR EXCLUDE_DATA :=
  if v.securityDir.virtualAddress ≠ 0 then
    if v.numberOfSections = 0 then
      .error .badSectionCount
    else
      let lastSec := v.sectionAt (v.numberOfSections - 1)
      let c := u32add lastSec.pointerToRawData lastSec.sizeOfRawData
      if v.securityDir.virtualAddress < c then
        .error .badSecurityDirectoryVA
      else if v.securityDir.virtualAddress ≥ v.fileSize then
        .error .badSecurityDirectoryVA
      else if v.securityDir.size > v.fileSize - v.securityDir.virtualAddress then
        .error .badSecurityDirectorySize
      else
        .ok ⟨checksumOffset, securityOffset, v.securityDir⟩
  else
    .ok ⟨checksumOffset, securityOffset, v.securityDir⟩

/-- `HashpGetExcludeRange`: dispatches on the optional-header magic to obtain
the fixed field offsets of `OptionalHeader.CheckSum` (`e_lfanew + 88` for both
layouts) and of `OptionalHeader.DataDirectory[IMAGE_DIRECTORY_ENTRY_SECURITY]`
(`e_lfanew + 168` for the 64-bit layout, `e_lfanew + 152` for the 32-bit one),
then validates the security directory. -/
def HashpGetExcludeRange (v : FILE_VIEW_INFO) :
    Except IMAGE_VERIFY_ERROR EXCLUDE_DATA :=
  if v.optMagic = IMAGE_NT_OPTIONAL_HDR64_MAGIC then
    HashpGetExcludeRangeChecked v (u32add v.e_lfanew 88) (u32add v.e_lfanew 168)
  else if v.optMagic = IMAGE_NT_OPTIONAL_HDR32_MAGIC then
    HashpGetExcludeRangeChecked v (u32add v.e_lfanew 88) (u32add v.e_lfanew 152)
  else
    .error .badOptionalHeaderMagic

/-- The `do { ... } while (i)` loop of `HashpAddPad`, run for `i` iterations,
with `k` the index of the next `BCryptHashData` call and `st` the current
`ntStatus`.  Each iteration feeds the 8-byte zero buffer and overwrites
`ntStatus` with that call's status.  Returns (chunks fed, final `ntStatus`,
next call index). -/
def hashpAddPadDoLoop (ok : Nat → Bool) :
    Nat → Nat → Bool → List (List Nat) × Bool × Nat
  | 0, k, st => ([], st, k)
  | i + 1, k, _ =>
      let r := hashpAddPadDoLoop ok i (k + 1) (ok k)
      (List.replicate 8 0 :: r.1, r.2)

/-- `HashpAddPad`: feeds `PaddingSize` zero bytes to the hash primitive using
the fixed 8-byte zero buffer: `PaddingSize >> 3` full 8-byte chunks (the
do-while loop, entered when `PaddingSize ≥ 8`), then the remaining
`PaddingSize mod 8` bytes if nonzero.  The do-while decrements `cbPad` by 8
per iteration, leaving `PaddingSize - 8 * (PaddingSize >> 3)`.  `ok n` is the
status returned by the n-th `BCryptHashData` call; the function returns the
chunks fed and the final `ntStatus` (the status of the last call made, or
success when no call is made). -/
def HashpAddPad (PaddingSize : Nat) (ok : Nat → Bool) :
    List (List Nat) × Bool :=
  let r := if DEFAULT_ALIGN_BYTES ≤ PaddingSize then
      hashpAddPadDoLoop ok (PaddingSize >>> 3) 0 true
    else ([], true, 0)
  let cbPad := PaddingSize - DEFAULT_ALIGN_BYTES * (PaddingSize >>> 3)
  if cbPad ≠ 0 then (r.1 ++ [List.replicate cbPad 0], ok r.2.2)
  else (r.1, r.2.1)

/-- The image bytes at offsets `[off, off + len)`. -/
def bytesIn (v : FILE_VIEW_INFO) (off len : Nat) : List Nat :=
  (List.range len).map fun i => v.byteAt (off + i)

/-- A `BCryptHashData(imageBase + off, len)` call on the mapped view: yields
the bytes fed when the span lies inside the view, `none` when the access
faults (caught by `__except`). -/
def readSpan (v : FILE_VIEW_INFO) (off len : Nat) : Option (List Nat) :=
  if off + len ≤ v.fileSize then some (bytesIn v off len) else none

/-- One `BCryptHashData` call of `CalculateAuthenticodeHash` (the bytes it
fed).  A trace ends with `finish` (`BCryptFinishHash`). -/
inductive AuthEvent where
  | update (bytes : List Nat)
  | finish
deriving DecidableEq

/-- `CalculateAuthenticodeHash`: hashes `[0, checksumOffset)`, then
`[checksumOffset+4, securityOffset)` (skipping the 4-byte `CheckSum` field),
then from `securityOffset+8` (skipping the 8-byte directory entry) up to the
certificate start (`VirtualAddress`, or end of file when it is `0`), pads the
length of that last span to a multiple of 8 with `HashpAddPad`, and finishes.
All offset arithmetic is `ULONG`.  Returns the trace of primitive calls, or
`none` when a span access faults (the function then returns `FALSE`). -/
def CalculateAuthenticodeHash (v : FILE_VIEW_INFO) (e : EXCLUDE_DATA) :
    Option (List AuthEvent) :=
  let checksumOffset := e.checksumOffset
  let securityOffset := e.securityOffset
  let dd := e.securityDirectory
  match readSpan v 0 checksumOffset with
  | none => none
  | some bytes1 =>
    let fileOffset := u32add checksumOffset 4
    let cbInput := u32sub securityOffset fileOffset
    match readSpan v fileOffset cbInput with
    | none => none
    | some bytes2 =>
      let fileOffset2 := u32add securityOffset 8
      let cbInput2 :=
        if dd.virtualAddress = 0 then u32sub v.fileSize fileOffset2
        else u32sub dd.virtualAddress fileOffset2
      match readSpan v fileOffset2 cbInput2 with
      | none => none
      | some bytes3 =>
        let sz := cbInput2 % DEFAULT_ALIGN_BYTES
        let padEvents : List AuthEvent :=
          if sz ≠ 0 then
            ((HashpAddPad (DEFAULT_ALIGN_BYTES - sz) fun _ => true).1).map .update
          else []
        some ([.update bytes1, .update bytes2, .update bytes3]
          ++ padEvents ++ [.finish])

/-- One step of `CalculateFirstPageHash`'s trace: a single image byte hashed
(`readByte`, with its offset and value), a faulting byte access (`fault`), a
zero chunk fed by the trailing `HashpAddPad` call (`padChunk`), or the final
`BCryptFinishHash` (`finish`). -/
inductive PageEvent where
  | readByte (off : Nat) (b : Nat)
  | fault (off : Nat)
  | padChunk (bytes : List Nat)
  | finish
deriving DecidableEq

/-- The in-loop offset adjustment of `CalculateFirstPageHash`: skip the
4-byte `CheckSum` field at `checksumOffset`, else skip the 8-byte data
directory entry at `securityOffset`.  `offset` is a `ULONG`, so the
increments wrap at `2^32`. -/
def skipAdjust (e : EXCLUDE_DATA) (offset : Nat) : Nat :=
  if offset = e.checksumOffset then u32add offset 4
  else if offset = e.securityOffset then u32add offset 8
  else offset

/-- The `while (offset < PageSize)` loop of `CalculateFirstPageHash`, with
its `ULONG` `offset` wrapping at `2^32`, structurally recursive on a fuel
argument.  Per iteration: adjust the offset past the two excluded fields,
break once `offset ≥ sizeOfHeaders`, otherwise feed the one image byte at
`offset` (a fault aborts with `FALSE`) and increment mod `2^32`.  Returns
the events fed, paired with `some (final offset, success)` when the loop
exits, or `none` when the fuel ran out with the loop still running.  The
loop state is the single `ULONG` `offset` and the step is deterministic, so
with fuel `2^32` (as in `CalculateFirstPageHash` below) running out of fuel
means a loop-head offset repeated: the source loop diverges. -/
def firstPageLoop (v : FILE_VIEW_INFO) (e : EXCLUDE_DATA)
    (pageSize soh : Nat) : Nat → Nat → List PageEvent × Option (Nat × Bool)
  | 0, offset =>
    if offset < pageSize then ([], none) else ([], some (offset, true))
  | fuel + 1, offset =>
    if offset < pageSize then
      let o1 := skipAdjust e offset
      if soh ≤ o1 then ([], some (o1, true))
      else if o1 < v.fileSize then
        let r := firstPageLoop v e pageSize soh fuel (u32add o1 1)
        (.readByte o1 (v.byteAt o1) :: r.1, r.2)
      else ([.fault o1], some (o1, false))
    else ([], some (offset, true))

/-- `CalculateFirstPageHash`: walks the first `PageSize` bytes with
`firstPageLoop` (bounded by `HashpGetSizeOfHeaders`, fuel `2^32`), then pads
with zero bytes up to `PageSize` via `HashpAddPad` and finishes.  Returns
the trace of primitive calls, paired with `some` of the `BOOLEAN` result,
or `none` when the source loop diverges (its wrapping `ULONG` offset cycles
without ever exiting). -/
def CalculateFirstPageHash (PageSize : Nat) (v : FILE_VIEW_INFO)
    (e : EXCLUDE_DATA) : List PageEvent × Option Bool :=
  let soh := HashpGetSizeOfHeaders v
  let r := firstPageLoop v e PageSize soh U32MOD 0
  match r.2 with
  | none => (r.1, none)
  | some (offset, ok) =>
    if ok then
      let padEvents : List PageEvent :=
        if offset < PageSize then
          ((HashpAddPad (PageSize - offset) fun _ => true).1).map .padChunk
        else []
      (r.1 ++ padEvents ++ [.finish], some true)
    else (r.1, some false)

/-- The end of the tail span hashed by `CalculateAuthenticodeHash`, as the
spec names it: `certEnd = fileSize` when `securityDirectory.virtualAddress`
is `0`, else `certEnd = virtualAddress`. -/
def authCertEnd (v : FILE_VIEW_INFO) (e : EXCLUDE_DATA) : Nat :=
  if e.securityDirectory.virtualAddress = 0 then v.fileSize
  else e.securityDirectory.virtualAddress

/-- The First-Page Hasher walk exactly as the claim states it: walk `o` from
0 while `o < pageSize`; if `o = checksumOffset` advance by 4 without
hashing, else if `o = securityOffset` advance by 8 without hashing; stop
once `o ≥ sizeOfHeaders`; otherwise hash the one image byte at `o` and
advance by 1.  Written for comparison with `firstPageLoop`, which is
translated from the source, wraps its `ULONG` offset at `2^32` and can
fault. -/
def firstPageClaimWalk (v : FILE_VIEW_INFO) (e : EXCLUDE_DATA)
    (pageSize soh : Nat) : Nat → Nat → List PageEvent × Nat
  | 0, offset => ([], offset)
  | fuel + 1, offset =>
    if offset < pageSize then
      let o1 := if offset = e.checksumOffset then offset + 4
        else if offset = e.securityOffset then offset + 8
        else offset
      if soh ≤ o1 then ([], o1)
      else
        let r := firstPageClaimWalk v e pageSize soh fuel (o1 + 1)
        (.readByte o1 (v.byteAt o1) :: r.1, r.2)
    else ([], offset)

/-! ## Arithmetic and padding helper lemmas -/

lemma u32add_eq_of_lt {a b : Nat} (h : a + b < U32MOD) : u32add a b = a + b := by
  simp only [u32add, U32MOD] at *
  omega

lemma u32sub_eq_of_le {a b : Nat} (hba : b ≤ a) (ha : a < U32MOD) :
    u32sub a b = a - b := by
  simp only [u32sub, U32MOD] at *
  omega

lemma hashpAddPadDoLoop_spec (ok : Nat → Bool) :
    ∀ i k st, hashpAddPadDoLoop ok i k st =
      (List.replicate i (List.replicate 8 0),
        (if i = 0 then st else ok (k + i - 1)), k + i) := by
  intro i
  induction i with
  | zero => intro k st; simp [hashpAddPadDoLoop]
  | succ n ih =>
    intro k st
    simp only [hashpAddPadDoLoop, ih, List.replicate_succ]
    rcases Nat.eq_zero_or_pos n with h | h
    · subst h; simp
    · have hn : n ≠ 0 := by omega
      have h1 : k + 1 + n - 1 = k + (n + 1) - 1 := by omega
      have h2 : k + 1 + n = k + (n + 1) := by omega
      simp [hn, h1, h2]

lemma HashpAddPad_chunks (n : Nat) (ok : Nat → Bool) :
    (HashpAddPad n ok).1 =
      List.replicate (n / 8) (List.replicate 8 0) ++
        (if n % 8 = 0 then [] else [List.replicate (n % 8) 0]) := by
  have hsh : n >>> 3 = n / 8 := Nat.shiftRight_eq_div_pow n 3
  simp only [HashpAddPad, hashpAddPadDoLoop_spec, DEFAULT_ALIGN_BYTES, hsh]
  have hmod : n - 8 * (n / 8) = n % 8 := by omega
  by_cases h8 : 8 ≤ n
  · by_cases hz : n % 8 = 0
    · simp [h8, hmod, hz]
    · simp [h8, hmod, hz]
  · have hd : n / 8 = 0 := Nat.div_eq_of_lt (by omega)
    have hn8 : n % 8 = n := Nat.mod_eq_of_lt (by omega)
    by_cases hz : n = 0
    · simp [h8, hz]
    · simp [h8, hd, hmod, hn8, hz]

lemma flatten_replicate_replicate_zero (m : Nat) :
    (List.replicate m (List.replicate 8 (0 : Nat))).flatten =
      List.replicate (8 * m) 0 := by
  induction m with
  | zero => simp
  | succ k ih =>
    rw [List.replicate_succ, List.flatten_cons, ih, Nat.mul_succ,
      Nat.add_comm (8 * k) 8, List.replicate_add]

lemma HashpAddPad_flatten (n : Nat) (ok : Nat → Bool) :
    ((HashpAddPad n ok).1).flatten = List.replicate n 0 := by
  rw [HashpAddPad_chunks]
  by_cases hz : n % 8 = 0
  · rw [if_pos hz, List.append_nil, flatten_replicate_replicate_zero]
    congr 1
    omega
  · rw [if_neg hz, List.flatten_append, flatten_replicate_replicate_zero,
      List.flatten_cons, List.flatten_nil, List.append_nil,
      ← List.replicate_add]
    congr 1
    omega

/-! ## C8: `HashpAddPad` feeds exactly `count` zero bytes in chunks of at
most 8 -/

/-- C8: for every `count ≥ 0`, `HashpAddPad count` feeds exactly `count`
zero-valued bytes to the hash primitive, as `count / 8` chunks of 8 zero
bytes (copies of the fixed 8-byte zero buffer) followed by one chunk of
`count % 8` zero bytes when `count % 8 ≠ 0`; every chunk has size at most 8
and no other bytes are fed. -/
theorem hashpAddPad_zero_chunks (count : Nat) (ok : Nat → Bool) :
    (HashpAddPad count ok).1 =
      List.replicate (count / 8) (List.replicate 8 0) ++
        (if count % 8 = 0 then [] else [List.replicate (count % 8) 0]) ∧
    ((HashpAddPad count ok).1).flatten = List.replicate count 0 ∧
    ∀ chunk ∈ (HashpAddPad count ok).1, chunk.length ≤ 8 := by
  refine ⟨HashpAddPad_chunks count ok, HashpAddPad_flatten count ok, ?_⟩
  intro chunk hc
  rw [HashpAddPad_chunks] at hc
  by_cases hz : count % 8 = 0
  · rw [if_pos hz, List.append_nil] at hc
    simp [List.eq_of_mem_replicate hc]
  · rw [if_neg hz] at hc
    rcases List.mem_append.mp hc with h | h
    · simp [List.eq_of_mem_replicate h]
    · rw [List.mem_singleton.mp h, List.length_replicate]
      omega

/-! ## C9: status propagation in `HashpAddPad` -/

/-- C9 (code bug): with `PaddingSize = 9` and a hash primitive whose first
(8-byte-chunk) call fails while the final (1-byte) call succeeds,
`HashpAddPad` returns success: the `do/while` loop overwrites `ntStatus` on
every iteration without checking it, so the intermediate failure is silently
swallowed, contradicting the spec's propagation requirement. -/
theorem hashpAddPad_swallows_intermediate_failure :
    (fun k => k != 0) 0 = false ∧
    (HashpAddPad 9 (fun k => k != 0)).2 = true := by
  exact ⟨rfl, rfl⟩

/-! ## Exclusion Range Calculator lemmas -/

lemma excludeRange_eq_checked (v : FILE_VIEW_INFO)
    (hm : v.optMagic = IMAGE_NT_OPTIONAL_HDR32_MAGIC ∨
      v.optMagic = IMAGE_NT_OPTIONAL_HDR64_MAGIC) :
    HashpGetExcludeRange v =
      HashpGetExcludeRangeChecked v (u32add v.e_lfanew 88)
        (u32add v.e_lfanew
          (if v.optMagic = IMAGE_NT_OPTIONAL_HDR64_MAGIC then 168 else 152)) := by
  rcases hm with h | h <;>
    simp [HashpGetExcludeRange, h,
      IMAGE_NT_OPTIONAL_HDR32_MAGIC, IMAGE_NT_OPTIONAL_HDR64_MAGIC]

lemma checked_ok_inv {v : FILE_VIEW_INFO} {a b : Nat} {e : EXCLUDE_DATA}
    (h : HashpGetExcludeRangeChecked v a b = .ok e) :
    e = ⟨a, b, v.securityDir⟩ := by
  simp only [HashpGetExcludeRangeChecked] at h
  split_ifs at h <;> simp_all

/-! ## C3: validation order and first-failure errors for a signed image -/

/-- C3: for an image with recognized magic whose security directory
`VirtualAddress` is nonzero, `HashpGetExcludeRange` performs its checks in
order and fails with the stated error at the first violation, producing no
descriptor; if all pass it returns the descriptor (`c` below is the `ULONG`
end of the last section's raw data, and the directory offsets follow the
magic as in the source). -/
theorem excludeRange_checks_in_order (v : FILE_VIEW_INFO)
    (hm : v.optMagic = IMAGE_NT_OPTIONAL_HDR32_MAGIC ∨
      v.optMagic = IMAGE_NT_OPTIONAL_HDR64_MAGIC)
    (hva : v.securityDir.virtualAddress ≠ 0) :
    (v.numberOfSections = 0 →
      HashpGetExcludeRange v = .error .badSectionCount) ∧
    (v.numberOfSections ≠ 0 →
      v.securityDir.virtualAddress <
        u32add (v.sectionAt (v.numberOfSections - 1)).pointerToRawData
          (v.sectionAt (v.numberOfSections - 1)).sizeOfRawData →
      HashpGetExcludeRange v = .error .badSecurityDirectoryVA) ∧
    (v.numberOfSections ≠ 0 →
      u32add (v.sectionAt (v.numberOfSections - 1)).pointerToRawData
          (v.sectionAt (v.numberOfSections - 1)).sizeOfRawData ≤
        v.securityDir.virtualAddress →
      v.securityDir.virtualAddress ≥ v.fileSize →
      HashpGetExcludeRange v = .error .badSecurityDirectoryVA) ∧
    (v.numberOfSections ≠ 0 →
      u32add (v.sectionAt (v.numberOfSections - 1)).pointerToRawData
          (v.sectionAt (v.numberOfSections - 1)).sizeOfRawData ≤
        v.securityDir.virtualAddress →
      v.securityDir.virtualAddress < v.fileSize →
      v.securityDir.size > v.fileSize - v.securityDir.virtualAddress →
      HashpGetExcludeRange v = .error .badSecurityDirectorySize) ∧
    (v.numberOfSections ≠ 0 →
      u32add (v.sectionAt (v.numberOfSections - 1)).pointerToRawData
          (v.sectionAt (v.numberOfSections - 1)).sizeOfRawData ≤
        v.securityDir.virtualAddress →
      v.securityDir.virtualAddress < v.fileSize →
      v.securityDir.size ≤ v.fileSize - v.securityDir.virtualAddress →
      HashpGetExcludeRange v =
        .ok ⟨u32add v.e_lfanew 88,
          u32add v.e_lfanew
            (if v.optMagic = IMAGE_NT_OPTIONAL_HDR64_MAGIC then 168 else 152),
          v.securityDir⟩) := by
  rw [excludeRange_eq_checked v hm]
  refine ⟨?_, ?_, ?_, ?_, ?_⟩
  · intro h0
    simp [HashpGetExcludeRangeChecked, hva, h0]
  · intro h0 hlt
    simp [HashpGetExcludeRangeChecked, hva, h0, hlt]
  · intro h0 hge hfs
    have hnlt : ¬v.securityDir.virtualAddress <
        u32add (v.sectionAt (v.numberOfSections - 1)).pointerToRawData
          (v.sectionAt (v.numberOfSections - 1)).sizeOfRawData := by omega
    simp [HashpGetExcludeRangeChecked, hva, h0, hnlt, hfs]
  · intro h0 hge hfs hsz
    have hnlt : ¬v.securityDir.virtualAddress <
        u32add (v.sectionAt (v.numberOfSections - 1)).pointerToRawData
          (v.sectionAt (v.numberOfSections - 1)).sizeOfRawData := by omega
    have hnfs : ¬v.securityDir.virtualAddress ≥ v.fileSize := by omega
    simp [HashpGetExcludeRangeChecked, hva, h0, hnlt, hnfs, hsz]
  · intro h0 hge hfs hsz
    have hnlt : ¬v.securityDir.virtualAddress <
        u32add (v.sectionAt (v.numberOfSections - 1)).pointerToRawData
          (v.sectionAt (v.numberOfSections - 1)).sizeOfRawData := by omega
    have hnfs : ¬v.securityDir.virtualAddress ≥ v.fileSize := by omega
    have hnsz : ¬v.securityDir.size > v.fileSize - v.securityDir.virtualAddress := by
      omega
    simp [HashpGetExcludeRangeChecked, hva, h0, hnlt, hnfs, hnsz]

/-- Witness for C3: a 64-bit image with one section ending at raw offset 0,
`VirtualAddress = 100`, `Size = 150` and `fileSize = 200` passes the section
and address checks and fails the size check (`150 > 200 - 100`). -/
theorem excludeRange_checks_in_order_witness :
    HashpGetExcludeRange
        ⟨0, 523, 1, fun _ => ⟨0, 0⟩, ⟨100, 150⟩, 0, 200, fun _ => 0⟩ =
      .error .badSecurityDirectorySize :=
  (excludeRange_checks_in_order
      ⟨0, 523, 1, fun _ => ⟨0, 0⟩, ⟨100, 150⟩, 0, 200, fun _ => 0⟩
      (Or.inr rfl) (by decide)).2.2.2.1
    (by decide) (by decide) (by decide) (by decide)

/-! ## C6: the descriptor invariant -/

/-- C6 counterexample: for a 64-bit image with `e_lfanew = 0`, an all-zero
security directory and `fileSize = 0`, `HashpGetExcludeRange` succeeds and
returns the descriptor `{checksumOffset := 88, securityOffset := 168}`, yet
`securityOffset + 8 = 176 > 0 = fileSize`: the calculator never checks the
claimed invariant `securityOffset + 8 ≤ fileSize`. -/
theorem excludeRange_invariant_counterexample :
    HashpGetExcludeRange ⟨0, 523, 0, fun _ => ⟨0, 0⟩, ⟨0, 0⟩, 0, 0, fun _ => 0⟩ =
      .ok ⟨88, 168, ⟨0, 0⟩⟩ ∧
    ¬((168 : Nat) + 8 ≤ 0) := by
  exact ⟨rfl, by omega⟩

/-- C6 (amended): provided the offset computation does not wrap the 32-bit
`ULONG` range (`e_lfanew + 168 < 2^32`), every descriptor produced by a
successful run of `HashpGetExcludeRange` satisfies
`checksumOffset + 4 ≤ securityOffset`; the second claimed inequality
`securityOffset + 8 ≤ fileSize` is not established by the calculator. -/
theorem excludeRange_checksum_before_security (v : FILE_VIEW_INFO)
    (e : EXCLUDE_DATA) (hlf : v.e_lfanew + 168 < U32MOD)
    (h : HashpGetExcludeRange v = .ok e) :
    e.checksumOffset + 4 ≤ e.securityOffset := by
  by_cases h64 : v.optMagic = IMAGE_NT_OPTIONAL_HDR64_MAGIC
  · rw [excludeRange_eq_checked v (Or.inr h64)] at h
    rw [checked_ok_inv h]
    simp only [h64, if_pos]
    rw [u32add_eq_of_lt (by omega), u32add_eq_of_lt (by omega)]
    omega
  · by_cases h32 : v.optMagic = IMAGE_NT_OPTIONAL_HDR32_MAGIC
    · rw [excludeRange_eq_checked v (Or.inl h32)] at h
      rw [checked_ok_inv h]
      rw [if_neg h64]
      rw [u32add_eq_of_lt (by omega), u32add_eq_of_lt (by omega)]
      dsimp only
      omega
    · rw [HashpGetExcludeRange, if_neg h64, if_neg h32] at h
      cases h

/-- Witness for C6 (amended): on a 64-bit image with `e_lfanew = 0` the
produced descriptor has `checksumOffset = 88`, `securityOffset = 168`, and
`88 + 4 ≤ 168`. -/
theorem excludeRange_checksum_before_security_witness :
    (88 : Nat) + 4 ≤ 168 :=
  excludeRange_checksum_before_security
    ⟨0, 523, 0, fun _ => ⟨0, 0⟩, ⟨0, 0⟩, 0, 1000, fun _ => 0⟩
    ⟨88, 168, ⟨0, 0⟩⟩ (by decide) rfl

/-! ## C7: unsigned images skip directory validation -/

/-- C7: for every image with recognized 32-bit or 64-bit magic whose security
directory `VirtualAddress` is `0`, `HashpGetExcludeRange` succeeds and
returns the descriptor, performing none of the directory-bounds validations:
the result holds for arbitrary section counts, section tables and directory
`Size` fields. -/
theorem excludeRange_unsigned_skips_validation (v : FILE_VIEW_INFO)
    (hm : v.optMagic = IMAGE_NT_OPTIONAL_HDR32_MAGIC ∨
      v.optMagic = IMAGE_NT_OPTIONAL_HDR64_MAGIC)
    (hva : v.securityDir.virtualAddress = 0) :
    HashpGetExcludeRange v =
      .ok ⟨u32add v.e_lfanew 88,
        u32add v.e_lfanew
          (if v.optMagic = IMAGE_NT_OPTIONAL_HDR64_MAGIC then 168 else 152),
        v.securityDir⟩ := by
  rw [excludeRange_eq_checked v hm]
  simp [HashpGetExcludeRangeChecked, hva]

/-- Witness for C7: a 32-bit image with an empty section table and a huge
directory `Size` but `VirtualAddress = 0` still yields a descriptor. -/
theorem excludeRange_unsigned_skips_validation_witness :
    HashpGetExcludeRange
        ⟨0, 267, 0, fun _ => ⟨50, 50⟩, ⟨0, 999999⟩, 0, 10, fun _ => 0⟩ =
      .ok ⟨88, 152, ⟨0, 999999⟩⟩ :=
  excludeRange_unsigned_skips_validation
    ⟨0, 267, 0, fun _ => ⟨50, 50⟩, ⟨0, 999999⟩, 0, 10, fun _ => 0⟩
    (Or.inl rfl) rfl

/-! ## Full-Image Hasher lemmas -/

lemma HashpAddPad_small {m : Nat} (h1 : 0 < m) (h2 : m < 8) (ok : Nat → Bool) :
    (HashpAddPad m ok).1 = [List.replicate m 0] := by
  rw [HashpAddPad_chunks]
  have hd : m / 8 = 0 := Nat.div_eq_of_lt h2
  have hm : m % 8 = m := Nat.mod_eq_of_lt h2
  have hne : m ≠ 0 := by omega
  simp [hd, hm, hne]

lemma bytesIn_congr {v w : FILE_VIEW_INFO} {off len : Nat}
    (h : ∀ i, i < len → v.byteAt (off + i) = w.byteAt (off + i)) :
    bytesIn v off len = bytesIn w off len := by
  unfold bytesIn
  apply List.map_congr_left
  intro i hi
  exact h i (List.mem_range.mp hi)

lemma bytesIn_getElem? (v : FILE_VIEW_INFO) (off len i : Nat) (h : i < len) :
    (bytesIn v off len)[i]? = some (v.byteAt (off + i)) := by
  unfold bytesIn
  rw [List.getElem?_map, List.getElem?_range h]
  rfl

lemma readSpan_some {v : FILE_VIEW_INFO} {off len : Nat}
    (h : off + len ≤ v.fileSize) :
    readSpan v off len = some (bytesIn v off len) := by
  rw [readSpan, if_pos h]

/-- Evaluation of `CalculateAuthenticodeHash` on a well-formed exclusion
descriptor: the three spans are exactly
`[0, checksumOffset)`, `[checksumOffset+4, securityOffset)` and
`[securityOffset+8, certEnd)`, followed by the `8 - consumed % 8` zero pad
bytes when `consumed % 8 ≠ 0`, then the finalize call. -/
lemma authHash_eval (v : FILE_VIEW_INFO) (e : EXCLUDE_DATA)
    (h1 : e.checksumOffset + 4 ≤ e.securityOffset)
    (h2 : e.securityOffset + 8 ≤ authCertEnd v e)
    (h3 : authCertEnd v e ≤ v.fileSize)
    (h4 : v.fileSize < U32MOD) :
    CalculateAuthenticodeHash v e =
      some ([.update (bytesIn v 0 e.checksumOffset),
        .update (bytesIn v (e.checksumOffset + 4)
          (e.securityOffset - (e.checksumOffset + 4))),
        .update (bytesIn v (e.securityOffset + 8)
          (authCertEnd v e - (e.securityOffset + 8)))] ++
        (if (authCertEnd v e - (e.securityOffset + 8)) % 8 = 0 then []
          else [.update (List.replicate
            (8 - (authCertEnd v e - (e.securityOffset + 8)) % 8) 0)]) ++
        [.finish]) := by
  have hA : u32add e.checksumOffset 4 = e.checksumOffset + 4 :=
    u32add_eq_of_lt (by omega)
  have hB : u32sub e.securityOffset (e.checksumOffset + 4) =
      e.securityOffset - (e.checksumOffset + 4) :=
    u32sub_eq_of_le (by omega) (by omega)
  have hC : u32add e.securityOffset 8 = e.securityOffset + 8 :=
    u32add_eq_of_lt (by omega)
  have hD : (if e.securityDirectory.virtualAddress = 0
        then u32sub v.fileSize (e.securityOffset + 8)
        else u32sub e.securityDirectory.virtualAddress
          (e.securityOffset + 8)) =
      authCertEnd v e - (e.securityOffset + 8) := by
    by_cases hva : e.securityDirectory.virtualAddress = 0
    · have hce : authCertEnd v e = v.fileSize := by rw [authCertEnd, if_pos hva]
      rw [if_pos hva, hce]
      exact u32sub_eq_of_le (by omega) (by omega)
    · have hce : authCertEnd v e = e.securityDirectory.virtualAddress := by
        rw [authCertEnd, if_neg hva]
      rw [if_neg hva, hce]
      exact u32sub_eq_of_le (by omega) (by omega)
  have r1 : readSpan v 0 e.checksumOffset =
      some (bytesIn v 0 e.checksumOffset) := readSpan_some (by omega)
  have r2 : readSpan v (e.checksumOffset + 4)
        (e.securityOffset - (e.checksumOffset + 4)) =
      some (bytesIn v (e.checksumOffset + 4)
        (e.securityOffset - (e.checksumOffset + 4))) :=
    readSpan_some (by omega)
  have r3 : readSpan v (e.securityOffset + 8)
        (authCertEnd v e - (e.securityOffset + 8)) =
      some (bytesIn v (e.securityOffset + 8)
        (authCertEnd v e - (e.securityOffset + 8))) :=
    readSpan_some (by omega)
  simp only [CalculateAuthenticodeHash, hA, hB, hC, hD, r1, r2, r3,
    DEFAULT_ALIGN_BYTES]
  by_cases hsz : (authCertEnd v e - (e.securityOffset + 8)) % 8 = 0
  · simp [hsz]
  · have hpad := HashpAddPad_small
      (m := 8 - (authCertEnd v e - (e.securityOffset + 8)) % 8)
      (by omega) (by omega) (fun _ => true)
    simp [hsz, hpad]

/-! ## C1: the exact span sequence of the Full-Image Hasher -/

/-- C1 counterexample: with exclusion descriptor
`{checksumOffset := 88, securityOffset := 152, securityDirectory := {100, 0}}`
and `fileSize = 200`, `certStart = 160` exceeds `certEnd = 100`, the `ULONG`
length of the third span wraps to `2^32 - 60`, the span access faults, and
`CalculateAuthenticodeHash` returns `FALSE` (`none`): it neither feeds the
claimed spans nor finalizes, so the claim fails for this view/descriptor
pair. -/
theorem authHash_full_trace_counterexample :
    CalculateAuthenticodeHash
        ⟨0, 267, 1, fun _ => ⟨0, 0⟩, ⟨100, 0⟩, 512, 200, fun _ => 0⟩
        ⟨88, 152, ⟨100, 0⟩⟩ = none := rfl

/-- C1 (amended): provided the descriptor is well-formed for the view —
`checksumOffset + 4 ≤ securityOffset`, `securityOffset + 8 ≤ certEnd`,
`certEnd ≤ fileSize` (with `certEnd = fileSize` if
`securityDirectory.virtualAddress = 0`, else `certEnd = virtualAddress`) and
`fileSize < 2^32` — the Full-Image Hasher feeds the hash primitive exactly:
the span `[0, checksumOffset)`, the span `[checksumOffset+4, securityOffset)`,
the span `[certStart, certEnd)` with `certStart = securityOffset + 8`, then
exactly `8 - (certEnd - certStart) % 8` zero bytes when
`(certEnd - certStart) % 8 ≠ 0`, and then finalizes; no other bytes are
fed. -/
theorem authHash_full_trace (v : FILE_VIEW_INFO) (e : EXCLUDE_DATA)
    (h1 : e.checksumOffset + 4 ≤ e.securityOffset)
    (h2 : e.securityOffset + 8 ≤ authCertEnd v e)
    (h3 : authCertEnd v e ≤ v.fileSize)
    (h4 : v.fileSize < U32MOD) :
    CalculateAuthenticodeHash v e =
      some ([.update (bytesIn v 0 e.checksumOffset),
        .update (bytesIn v (e.checksumOffset + 4)
          (e.securityOffset - (e.checksumOffset + 4))),
        .update (bytesIn v (e.securityOffset + 8)
          (authCertEnd v e - (e.securityOffset + 8)))] ++
        (if (authCertEnd v e - (e.securityOffset + 8)) % 8 = 0 then []
          else [.update (List.replicate
            (8 - (authCertEnd v e - (e.securityOffset + 8)) % 8) 0)]) ++
        [.finish]) :=
  authHash_eval v e h1 h2 h3 h4

/-- Witness for C1 (amended): an unsigned view of 170 bytes, all equal to 7,
with descriptor `{88, 152, {0, 0}}`: spans `[0,88)`, `[92,152)`, `[160,170)`
are fed, then `8 - 10 % 8 = 6` zero bytes, then finalize. -/
theorem authHash_full_trace_witness :
    CalculateAuthenticodeHash
        ⟨0, 267, 1, fun _ => ⟨0, 0⟩, ⟨0, 0⟩, 512, 170, fun _ => 7⟩
        ⟨88, 152, ⟨0, 0⟩⟩ =
      some [.update (List.replicate 88 7), .update (List.replicate 60 7),
        .update (List.replicate 10 7), .update (List.replicate 6 0),
        .finish] :=
  authHash_full_trace
    ⟨0, 267, 1, fun _ => ⟨0, 0⟩, ⟨0, 0⟩, 512, 170, fun _ => 7⟩
    ⟨88, 152, ⟨0, 0⟩⟩ (by decide) (by decide) (by decide) (by decide)

/-! ## C2: signature invariance of the Full-Image Hasher -/

lemma authHash_wrap_eval (v : FILE_VIEW_INFO) (e : EXCLUDE_DATA)
    (hcs : e.checksumOffset = 0) (hso : e.securityOffset = 4294967288)
    (hva : e.securityDirectory.virtualAddress = 0)
    (hfs : v.fileSize = 4294967288) :
    CalculateAuthenticodeHash v e =
      some [.update (bytesIn v 0 0), .update (bytesIn v 4 4294967284),
        .update (bytesIn v 0 4294967288), .finish] := by
  have hA : u32add 0 4 = 4 := by decide
  have hB : u32sub 4294967288 4 = 4294967284 := by decide
  have hC : u32add 4294967288 8 = 0 := by decide
  have hD : u32sub 4294967288 0 = 4294967288 := by decide
  have hsz : (4294967288 : Nat) % 8 = 0 := by decide
  have r1 : readSpan v 0 0 = some (bytesIn v 0 0) := readSpan_some (by omega)
  have r2 : readSpan v 4 4294967284 = some (bytesIn v 4 4294967284) :=
    readSpan_some (by omega)
  have r3 : readSpan v 0 4294967288 = some (bytesIn v 0 4294967288) :=
    readSpan_some (by omega)
  simp [CalculateAuthenticodeHash, hcs, hso, hva, hfs, hA, hB, hC, hD, hsz,
    r1, r2, r3, DEFAULT_ALIGN_BYTES]

/-- C2 counterexample: two views of `fileSize = 2^32 - 8` share the
descriptor `{checksumOffset := 0, securityOffset := 2^32 - 8,
virtualAddress := 0}` and differ only at offset 0, inside the 4-byte
checksum field `[0, 4)`, yet the Full-Image Hasher's traces (hence digests)
differ: `certStart = securityOffset + 8` wraps to 0 in `ULONG` arithmetic,
so the tail span re-reads `[0, fileSize)` including the checksum field. -/
theorem authHash_signature_invariance_counterexample :
    CalculateAuthenticodeHash
        ⟨0, 267, 1, fun _ => ⟨0, 0⟩, ⟨0, 0⟩, 512, 4294967288, fun _ => 0⟩
        ⟨0, 4294967288, ⟨0, 0⟩⟩ ≠
      CalculateAuthenticodeHash
        ⟨0, 267, 1, fun _ => ⟨0, 0⟩, ⟨0, 0⟩, 512, 4294967288,
          fun o => if o = 0 then 1 else 0⟩
        ⟨0, 4294967288, ⟨0, 0⟩⟩ := by
  intro h
  rw [authHash_wrap_eval _ _ rfl rfl rfl rfl,
    authHash_wrap_eval _ _ rfl rfl rfl rfl] at h
  simp only [Option.some.injEq, List.cons.injEq, AuthEvent.update.injEq] at h
  obtain ⟨-, -, h3, -⟩ := h
  have h0 := congrArg (fun l => l[0]?) h3
  simp only [bytesIn_getElem? _ 0 4294967288 0 (by norm_num)] at h0
  simp at h0

/-- C2 (amended): provided the shared descriptor is well-formed for the
views — `checksumOffset + 4 ≤ securityOffset`, `securityOffset + 8 ≤
certEnd`, `certEnd ≤ fileSize` and `fileSize < 2^32` — two views of the
same `fileSize` whose bytes agree outside the checksum field, the directory
entry and the certificate region `[virtualAddress, fileSize)` (the latter
when `virtualAddress ≠ 0`) make the Full-Image Hasher succeed with identical
traces, hence identical digests. -/
theorem authHash_signature_invariance (v1 v2 : FILE_VIEW_INFO)
    (e : EXCLUDE_DATA)
    (hfs : v1.fileSize = v2.fileSize)
    (h1 : e.checksumOffset + 4 ≤ e.securityOffset)
    (h2 : e.securityOffset + 8 ≤ authCertEnd v1 e)
    (h3 : authCertEnd v1 e ≤ v1.fileSize)
    (h4 : v1.fileSize < U32MOD)
    (hagree : ∀ off, off < v1.fileSize →
      ¬(e.checksumOffset ≤ off ∧ off < e.checksumOffset + 4) →
      ¬(e.securityOffset ≤ off ∧ off < e.securityOffset + 8) →
      (e.securityDirectory.virtualAddress ≠ 0 →
        off < e.securityDirectory.virtualAddress) →
      v1.byteAt off = v2.byteAt off) :
    CalculateAuthenticodeHash v1 e = CalculateAuthenticodeHash v2 e ∧
      (CalculateAuthenticodeHash v1 e).isSome = true := by
  have hce : authCertEnd v2 e = authCertEnd v1 e := by
    unfold authCertEnd
    by_cases hva : e.securityDirectory.virtualAddress = 0 <;> simp [hva, hfs]
  have hva_lt : ∀ off, off < authCertEnd v1 e →
      (e.securityDirectory.virtualAddress ≠ 0 →
        off < e.securityDirectory.virtualAddress) := by
    intro off hoff hva
    have hv : authCertEnd v1 e = e.securityDirectory.virtualAddress := by
      rw [authCertEnd, if_neg hva]
    omega
  have b1 : bytesIn v1 0 e.checksumOffset = bytesIn v2 0 e.checksumOffset := by
    apply bytesIn_congr
    intro i hi
    exact hagree (0 + i) (by omega) (by omega) (by omega)
      (hva_lt (0 + i) (by omega))
  have b2 : bytesIn v1 (e.checksumOffset + 4)
        (e.securityOffset - (e.checksumOffset + 4)) =
      bytesIn v2 (e.checksumOffset + 4)
        (e.securityOffset - (e.checksumOffset + 4)) := by
    apply bytesIn_congr
    intro i hi
    exact hagree (e.checksumOffset + 4 + i) (by omega) (by omega) (by omega)
      (hva_lt (e.checksumOffset + 4 + i) (by omega))
  have b3 : bytesIn v1 (e.securityOffset + 8)
        (authCertEnd v1 e - (e.securityOffset + 8)) =
      bytesIn v2 (e.securityOffset + 8)
        (authCertEnd v1 e - (e.securityOffset + 8)) := by
    apply bytesIn_congr
    intro i hi
    exact hagree (e.securityOffset + 8 + i) (by omega) (by omega) (by omega)
      (hva_lt (e.securityOffset + 8 + i) (by omega))
  rw [authHash_eval v1 e h1 h2 h3 h4,
    authHash_eval v2 e h1 (by rw [hce]; exact h2)
      (by rw [hce, ← hfs]; exact h3) (by rw [← hfs]; exact h4),
    hce, b1, b2, b3]
  exact ⟨rfl, rfl⟩

set_option maxRecDepth 4096 in
/-- Witness for C2 (amended): two 170-byte views differing only at offset
90, inside the checksum field `[88, 92)`, hash to the same trace, and the
run succeeds. -/
theorem authHash_signature_invariance_witness :
    CalculateAuthenticodeHash
        ⟨0, 267, 1, fun _ => ⟨0, 0⟩, ⟨0, 0⟩, 512, 170, fun _ => 7⟩
        ⟨88, 152, ⟨0, 0⟩⟩ =
      CalculateAuthenticodeHash
        ⟨0, 267, 1, fun _ => ⟨0, 0⟩, ⟨0, 0⟩, 512, 170,
          fun o => if o = 90 then 9 else 7⟩
        ⟨88, 152, ⟨0, 0⟩⟩ ∧
      (CalculateAuthenticodeHash
        ⟨0, 267, 1, fun _ => ⟨0, 0⟩, ⟨0, 0⟩, 512, 170, fun _ => 7⟩
        ⟨88, 152, ⟨0, 0⟩⟩).isSome = true :=
  authHash_signature_invariance _ _ _ rfl (by decide) (by decide)
    (by decide) (by decide) (by decide)

/-! ## First-Page Hasher lemmas -/

lemma firstPageLoop_exit (v : FILE_VIEW_INFO) (e : EXCLUDE_DATA)
    (pageSize soh fuel offset : Nat) (hoff : ¬offset < pageSize) :
    firstPageLoop v e pageSize soh fuel offset = ([], some (offset, true)) := by
  cases fuel <;> simp [firstPageLoop, hoff]

lemma firstPageLoop_break (v : FILE_VIEW_INFO) (e : EXCLUDE_DATA)
    (pageSize soh fuel offset : Nat) (hf : 0 < fuel)
    (hoff : offset < pageSize) (hbrk : soh ≤ skipAdjust e offset) :
    firstPageLoop v e pageSize soh fuel offset =
      ([], some (skipAdjust e offset, true)) := by
  cases fuel with
  | zero => omega
  | succ n => simp [firstPageLoop, hoff, hbrk]

lemma skipAdjust_eq_of_lt {e : EXCLUDE_DATA} {offset : Nat}
    (h : offset + 8 < U32MOD) :
    skipAdjust e offset =
      (if offset = e.checksumOffset then offset + 4
        else if offset = e.securityOffset then offset + 8
        else offset) := by
  unfold skipAdjust
  split_ifs with h1 h2
  · exact u32add_eq_of_lt (by omega)
  · exact u32add_eq_of_lt (by omega)
  · rfl

/-- Under the no-wrap side conditions (`sizeOfHeaders ≤ fileSize < 2^32`,
`pageSize + 8 < 2^32`) the source loop terminates, never faults, and its
events and final offset coincide with the claim's walk; the fuels only need
to dominate the remaining distance `pageSize - offset`. -/
lemma firstPageLoop_eq_claimWalk (v : FILE_VIEW_INFO) (e : EXCLUDE_DATA)
    (pageSize soh : Nat) (hsoh : soh ≤ v.fileSize) (hfs : v.fileSize < U32MOD)
    (hp : pageSize + 8 < U32MOD) :
    ∀ fuel1 fuel2 offset, pageSize ≤ fuel1 + offset →
      pageSize ≤ fuel2 + offset →
      firstPageLoop v e pageSize soh fuel1 offset =
        ((firstPageClaimWalk v e pageSize soh fuel2 offset).1,
          some ((firstPageClaimWalk v e pageSize soh fuel2 offset).2, true)) := by
  intro fuel1
  induction fuel1 with
  | zero =>
    intro fuel2 offset h1 h2
    have hoff : ¬offset < pageSize := by omega
    cases fuel2 <;> simp [firstPageLoop, firstPageClaimWalk, hoff]
  | succ n ih =>
    intro fuel2 offset h1 h2
    by_cases hoff : offset < pageSize
    · obtain ⟨m, rfl⟩ : ∃ m, fuel2 = m + 1 := by
        cases fuel2 with
        | zero => exact absurd h2 (by omega)
        | succ k => exact ⟨k, rfl⟩
      simp only [firstPageLoop, firstPageClaimWalk]
      rw [if_pos hoff, if_pos hoff, skipAdjust_eq_of_lt (by omega)]
      by_cases hbrk : soh ≤ (if offset = e.checksumOffset then offset + 4
        else if offset = e.securityOffset then offset + 8 else offset)
      · rw [if_pos hbrk, if_pos hbrk]
      · have hadj_ge : offset ≤ (if offset = e.checksumOffset then offset + 4
            else if offset = e.securityOffset then offset + 8 else offset) := by
          split_ifs <;> omega
        have hlt : (if offset = e.checksumOffset then offset + 4
            else if offset = e.securityOffset then offset + 8 else offset) <
            v.fileSize := by omega
        rw [if_neg hbrk, if_neg hbrk, if_pos hlt,
          u32add_eq_of_lt (by omega), ih m _ (by omega) (by omega)]
    · cases m : fuel2 <;> simp [firstPageLoop, firstPageClaimWalk, hoff]

/-! ## C4: the exact walk of the First-Page Hasher -/

/-- C4 counterexample: a truncated mapping — `fileSize = 0` with declared
`SizeOfHeaders = 300` and `pageSize = 16` — makes the very first byte access
fault; the hasher returns `FALSE` after the fault event instead of hashing
the byte at offset 0, padding and finalizing as the claim states. -/
theorem firstPage_trace_counterexample :
    CalculateFirstPageHash 16
        ⟨0, 523, 1, fun _ => ⟨0, 0⟩, ⟨0, 0⟩, 300, 0, fun _ => 0⟩
        ⟨88, 152, ⟨0, 0⟩⟩ = ([.fault 0], some false) := rfl

/-- C4 (amended): provided the mapping covers the declared headers
(`sizeOfHeaders ≤ fileSize` — on a shorter, truncated view the hasher
instead stops with a fault error at the first out-of-bounds read), the file
size is a `ULONG` value (`fileSize < 2^32`), and the `ULONG` walk offset
cannot wrap (`pageSize + 8 < 2^32` — with a page size within 8 of `2^32`
and excluded-field offsets near `2^32` the source loop wraps its offset and
never terminates), the First-Page Hasher's trace is exactly the walk the
claim describes (`firstPageClaimWalk`: from offset 0 while `o < pageSize`,
skip 4 at `checksumOffset` / else 8 at `securityOffset` without hashing,
stop once `o ≥ sizeOfHeaders`, else hash the one image byte at `o` and
advance by 1), followed — when the final offset `o` is below `pageSize` —
by `HashpAddPad` chunks carrying exactly `pageSize - o` zero bytes, and the
finalize call; the run succeeds. -/
theorem firstPage_trace (PageSize : Nat) (v : FILE_VIEW_INFO)
    (e : EXCLUDE_DATA) (h : HashpGetSizeOfHeaders v ≤ v.fileSize)
    (hfs : v.fileSize < U32MOD) (hp : PageSize + 8 < U32MOD) :
    CalculateFirstPageHash PageSize v e =
      ((firstPageClaimWalk v e PageSize (HashpGetSizeOfHeaders v)
          PageSize 0).1 ++
        (if (firstPageClaimWalk v e PageSize (HashpGetSizeOfHeaders v)
            PageSize 0).2 < PageSize then
          ((HashpAddPad (PageSize -
              (firstPageClaimWalk v e PageSize (HashpGetSizeOfHeaders v)
                PageSize 0).2) fun _ => true).1).map PageEvent.padChunk
        else []) ++ [.finish], some true) ∧
    ((HashpAddPad (PageSize -
        (firstPageClaimWalk v e PageSize (HashpGetSizeOfHeaders v)
          PageSize 0).2) fun _ => true).1).flatten =
      List.replicate (PageSize -
        (firstPageClaimWalk v e PageSize (HashpGetSizeOfHeaders v)
          PageSize 0).2) 0 := by
  refine ⟨?_, HashpAddPad_flatten _ _⟩
  have hloop := firstPageLoop_eq_claimWalk v e PageSize
    (HashpGetSizeOfHeaders v) h hfs hp U32MOD PageSize 0 (by omega) (by omega)
  simp only [CalculateFirstPageHash, hloop]
  simp

/-- Witness for C4 (amended): `pageSize = 8`, `sizeOfHeaders = 5`,
`fileSize = 10`, all bytes 7: the hasher reads offsets 0..4, pads with 3
zero bytes and finalizes. -/
theorem firstPage_trace_witness :
    CalculateFirstPageHash 8
        ⟨0, 523, 1, fun _ => ⟨0, 0⟩, ⟨0, 0⟩, 5, 10, fun _ => 7⟩
        ⟨88, 152, ⟨0, 0⟩⟩ =
      ([.readByte 0 7, .readByte 1 7, .readByte 2 7, .readByte 3 7,
        .readByte 4 7, .padChunk [0, 0, 0], .finish], some true) ∧
    ([[0, 0, 0]] : List (List Nat)).flatten = [0, 0, 0] :=
  firstPage_trace 8
    ⟨0, 523, 1, fun _ => ⟨0, 0⟩, ⟨0, 0⟩, 5, 10, fun _ => 7⟩
    ⟨88, 152, ⟨0, 0⟩⟩ (by decide) (by decide) (by decide)

/-! ## C5: the First-Page Hasher never touches bytes at or beyond
`sizeOfHeaders` -/

lemma firstPageLoop_reads_lt_soh (v : FILE_VIEW_INFO) (e : EXCLUDE_DATA)
    (pageSize soh : Nat) :
    ∀ fuel offset, ∀ ev ∈ (firstPageLoop v e pageSize soh fuel offset).1,
      (∀ off b, ev = PageEvent.readByte off b → off < soh) ∧
      (∀ off, ev = PageEvent.fault off → off < soh) := by
  intro fuel
  induction fuel with
  | zero =>
    intro offset ev hev
    by_cases h1 : offset < pageSize <;> simp [firstPageLoop, h1] at hev
  | succ n ih =>
    intro offset ev hev
    simp only [firstPageLoop] at hev
    by_cases h1 : offset < pageSize
    · rw [if_pos h1] at hev
      by_cases h2 : soh ≤ skipAdjust e offset
      · simp [h2] at hev
      · rw [if_neg h2] at hev
        by_cases h3 : skipAdjust e offset < v.fileSize
        · rw [if_pos h3] at hev
          rcases List.mem_cons.mp hev with rfl | hev'
          · refine ⟨fun off b heq => ?_, fun off heq => ?_⟩
            · cases heq; omega
            · cases heq
          · exact ih (u32add (skipAdjust e offset) 1) ev hev'
        · rw [if_neg h3] at hev
          rcases List.mem_singleton.mp hev with rfl
          refine ⟨fun off b heq => ?_, fun off heq => ?_⟩
          · cases heq
          · cases heq; omega
    · rw [if_neg h1] at hev
      simp at hev

/-- C5: every image byte offset that the First-Page Hasher reads — or even
attempts to read, in the faulting case — is strictly less than
`sizeOfHeaders`; no byte at offset `≥ sizeOfHeaders` is ever read from the
image (padding chunks and the finalize call touch no image byte). -/
theorem firstPage_reads_only_headers (PageSize : Nat) (v : FILE_VIEW_INFO)
    (e : EXCLUDE_DATA) (ev : PageEvent)
    (hev : ev ∈ (CalculateFirstPageHash PageSize v e).1) :
    (∀ off b, ev = PageEvent.readByte off b →
      off < HashpGetSizeOfHeaders v) ∧
    (∀ off, ev = PageEvent.fault off → off < HashpGetSizeOfHeaders v) := by
  simp only [CalculateFirstPageHash] at hev
  rcases hr : (firstPageLoop v e PageSize (HashpGetSizeOfHeaders v)
      U32MOD 0).2 with _ | ⟨offset, ok⟩
  · simp only [hr] at hev
    exact firstPageLoop_reads_lt_soh v e PageSize (HashpGetSizeOfHeaders v)
      U32MOD 0 ev hev
  · cases ok with
    | false =>
      simp only [hr, Bool.false_eq_true, if_false] at hev
      exact firstPageLoop_reads_lt_soh v e PageSize (HashpGetSizeOfHeaders v)
        U32MOD 0 ev hev
    | true =>
      simp only [hr, if_pos rfl] at hev
      rcases List.mem_append.mp hev with h | h
      · rcases List.mem_append.mp h with h' | h'
        · exact firstPageLoop_reads_lt_soh v e PageSize
            (HashpGetSizeOfHeaders v) U32MOD 0 ev h'
        · by_cases hlt : offset < PageSize
          · rw [if_pos hlt] at h'
            obtain ⟨bs, -, rfl⟩ := List.mem_map.mp h'
            exact ⟨(fun off b heq => nomatch heq), (fun off heq => nomatch heq)⟩
          · rw [if_neg hlt] at h'
            simp at h'
      · rcases List.mem_singleton.mp h with rfl
        exact ⟨(fun off b heq => nomatch heq), (fun off heq => nomatch heq)⟩

/-- Witness for C5: on a view with `sizeOfHeaders = 5`, the read of offset 0
recorded in the trace satisfies `0 < sizeOfHeaders`. -/
theorem firstPage_reads_only_headers_witness :
    0 < HashpGetSizeOfHeaders
      ⟨0, 523, 1, fun _ => ⟨0, 0⟩, ⟨0, 0⟩, 5, 10, fun _ => 7⟩ :=
  (firstPage_reads_only_headers 2
    ⟨0, 523, 1, fun _ => ⟨0, 0⟩, ⟨0, 0⟩, 5, 10, fun _ => 7⟩
    ⟨88, 152, ⟨0, 0⟩⟩ (.readByte 0 7) (by decide)).1 0 7 rfl

/-! ## C10: unrecognized optional-header magic -/

/-- C10: for an image whose optional-header magic is neither the 32-bit nor
the 64-bit value, `HashpGetSizeOfHeaders` reports 0, and the First-Page
Hasher does not fail: the loop stops before hashing a single image byte (so
the trace contains no read at all), only zero padding up to `pageSize` is
fed, and the run finalizes successfully. -/
theorem firstPage_bad_magic_succeeds (PageSize : Nat) (v : FILE_VIEW_INFO)
    (e : EXCLUDE_DATA)
    (h32 : v.optMagic ≠ IMAGE_NT_OPTIONAL_HDR32_MAGIC)
    (h64 : v.optMagic ≠ IMAGE_NT_OPTIONAL_HDR64_MAGIC) :
    HashpGetSizeOfHeaders v = 0 ∧
    CalculateFirstPageHash PageSize v e =
      ((if skipAdjust e 0 < PageSize then
          ((HashpAddPad (PageSize - skipAdjust e 0) fun _ => true).1).map
            PageEvent.padChunk
        else []) ++ [.finish], some true) := by
  have hsoh : HashpGetSizeOfHeaders v = 0 := by
    simp [HashpGetSizeOfHeaders, h32, h64]
  refine ⟨hsoh, ?_⟩
  by_cases hpp : 0 < PageSize
  · have hloop : firstPageLoop v e PageSize 0 U32MOD 0 =
        ([], some (skipAdjust e 0, true)) :=
      firstPageLoop_break v e PageSize 0 U32MOD 0 (by decide) hpp
        (Nat.zero_le _)
    simp only [CalculateFirstPageHash, hsoh, hloop]
    simp
  · have hpz : PageSize = 0 := by omega
    subst hpz
    have hloop : firstPageLoop v e 0 0 U32MOD 0 = ([], some (0, true)) :=
      firstPageLoop_exit v e 0 0 U32MOD 0 (by omega)
    simp only [CalculateFirstPageHash, hsoh, hloop]
    simp

/-- Witness for C10: magic 0, `pageSize = 16`: the trace is two 8-byte zero
pad chunks followed by finalize, and the run succeeds. -/
theorem firstPage_bad_magic_succeeds_witness :
    HashpGetSizeOfHeaders
        ⟨0, 0, 1, fun _ => ⟨0, 0⟩, ⟨0, 0⟩, 300, 0, fun _ => 0⟩ = 0 ∧
    CalculateFirstPageHash 16
        ⟨0, 0, 1, fun _ => ⟨0, 0⟩, ⟨0, 0⟩, 300, 0, fun _ => 0⟩
        ⟨88, 152, ⟨0, 0⟩⟩ =
      ([.padChunk (List.replicate 8 0), .padChunk (List.replicate 8 0),
        .finish], some true) :=
  firstPage_bad_magic_succeeds 16
    ⟨0, 0, 1, fun _ => ⟨0, 0⟩, ⟨0, 0⟩, 300, 0, fun _ => 0⟩
    ⟨88, 152, ⟨0, 0⟩⟩ (by decide) (by decide)

end AuthHashCalc
